import Mathlib

/-!
Verification development for `website-screenshot-cli` (`app/main.py`).

The Python program is shallowly embedded: pure string manipulation is
translated to executable Lean functions on `String` / `List Char`,
Python's `set` registry becomes a `Finset String`, and the effectful
browser interactions (Playwright page handles) are modelled by explicit
oracles recording the outcome of each external call, with exceptions
modelled by `Except Unit`.
-/

namespace WSC

/-! ### Python string primitives -/

/-- The ASCII whitespace characters recognised by Python's `str.strip()`
(restricted to ASCII, which is all the program feeds it). -/
def pyWhitespace : List Char := [' ', '\t', '\n', '\x0d', '\x0b', '\x0c']

def isPySpace (c : Char) : Bool := pyWhitespace.contains c

/-- `str.strip()`: drop leading and trailing whitespace. -/
def pyStrip (s : String) : String :=
  let l := s.data.dropWhile isPySpace
  ((l.reverse.dropWhile isPySpace).reverse).asString

/-- ASCII lower-casing of one character (`str.lower()` on the ASCII range). -/
def asciiLower (c : Char) : Char :=
  if 'A' ≤ c ∧ c ≤ 'Z' then Char.ofNat (c.toNat + 32) else c

/-- `str.lower()` (ASCII fragment). -/
def pyLower (s : String) : String := (s.data.map asciiLower).asString

/-- Does `suf` occur as a suffix of `s` (`str.endswith`)? -/
def pyEndsWith (s suf : String) : Bool := suf.data.isSuffixOf s.data

/-- Remove `suf` from the end of `s` when present. -/
def dropSuffixStr (s suf : String) : String :=
  if pyEndsWith s suf then (s.data.take (s.data.length - suf.data.length)).asString
  else s

/-- `str.split(sep)`-style splitting of a character list at characters
satisfying `sep`; adjacent separators yield empty tokens, which the
callers below filter out (so this agrees with `re.split` on a
one-or-more separator class after that filtering). -/
def splitOnPred (sep : Char → Bool) : List Char → List Char → List (List Char)
  | [], cur => [cur.reverse]
  | c :: rest, cur =>
    if sep c then cur.reverse :: splitOnPred sep rest []
    else splitOnPred sep rest (c :: cur)

/-! ### `urllib.parse.urlparse` (the fragment the program uses) -/

structure ParsedUrl where
  scheme : String
  netloc : String
  path : String
deriving Repr, DecidableEq

def isSchemeChar (c : Char) : Bool :=
  ('a' ≤ c ∧ c ≤ 'z') ∨ ('A' ≤ c ∧ c ≤ 'Z') ∨ ('0' ≤ c ∧ c ≤ '9') ∨
    c = '+' ∨ c = '-' ∨ c = '.'

def isAlphaChar (c : Char) : Bool := ('a' ≤ c ∧ c ≤ 'z') ∨ ('A' ≤ c ∧ c ≤ 'Z')

/-- Split `l` at the first `':'` when the run before it is a valid URL
scheme (a letter followed by scheme characters); returns the lowercased
scheme and the remainder, as `urlparse` does. -/
def splitScheme (l : List Char) : String × List Char :=
  let before := l.takeWhile (fun c => c ≠ ':')
  let after := l.drop before.length
  match after with
  | ':' :: rest =>
    match before with
    | [] => ("", l)
    | c0 :: cs =>
      if isAlphaChar c0 ∧ cs.all isSchemeChar then
        ((before.map asciiLower).asString, rest)
      else ("", l)
  | _ => ("", l)

/-- Model of `urllib.parse.urlparse` restricted to the components the
program reads (`scheme`, `netloc`, `path`); query (`?…`) and fragment
(`#…`) parts are stripped from the path as `urlparse` does. -/
def urlparse (u : String) : ParsedUrl :=
  let (scheme, rest) := splitScheme u.data
  let rest := rest.takeWhile (fun c => c ≠ '#')
  if rest.take 2 = ['/', '/'] then
    let body := rest.drop 2
    let netloc := body.takeWhile (fun c => c ≠ '/' ∧ c ≠ '?')
    let tail := body.drop netloc.length
    let path := tail.takeWhile (fun c => c ≠ '?')
    ⟨scheme, netloc.asString, path.asString⟩
  else
    ⟨scheme, "", (rest.takeWhile (fun c => c ≠ '?')).asString⟩

/-! ### Slug machinery (`_slugify_segment`, `unique_slug_for_url`) -/

def isSlugChar (c : Char) : Bool :=
  ('a' ≤ c ∧ c ≤ 'z') ∨ ('0' ≤ c ∧ c ≤ '9') ∨ c = '-' ∨ c = '_'

/-- `re.sub(r"[^a-z0-9\-_]+", "-", s)`: each maximal run of disallowed
characters becomes a single hyphen.  `prevBad` records whether the
previous character belonged to such a run. -/
def collapseBadRuns : List Char → Bool → List Char
  | [], _ => []
  | c :: rest, prevBad =>
    if isSlugChar c then c :: collapseBadRuns rest false
    else if prevBad then collapseBadRuns rest true
    else '-' :: collapseBadRuns rest true

/-- `re.sub(r"-{2,}", "-", s)`: collapse runs of hyphens to one. -/
def collapseHyphens : List Char → Bool → List Char
  | [], _ => []
  | c :: rest, prevHyp =>
    if c = '-' then
      if prevHyp then collapseHyphens rest true
      else '-' :: collapseHyphens rest true
    else c :: collapseHyphens rest false

/-- `str.strip('-')`. -/
def stripHyphens (l : List Char) : List Char :=
  ((l.dropWhile (fun c => c = '-')).reverse.dropWhile (fun c => c = '-')).reverse

/-- `re.sub(r"\.(html?|aspx|php)$", "", s)` on an already lowercased
string: remove one trailing page-suffix extension. -/
def stripPageExt (s : String) : String :=
  if pyEndsWith s ".html" then dropSuffixStr s ".html"
  else if pyEndsWith s ".htm" then dropSuffixStr s ".htm"
  else if pyEndsWith s ".aspx" then dropSuffixStr s ".aspx"
  else if pyEndsWith s ".php" then dropSuffixStr s ".php"
  else s

/-- `_slugify_segment` from `app/main.py`. -/
def slugifySegment (s : String) : String :=
  let s := pyLower (pyStrip s)
  let s := stripPageExt s
  let s := (collapseBadRuns s.data false)
  let s := (stripHyphens (collapseHyphens s false)).asString
  if s = "" then "page" else s

/-- The non-empty path segments of a parsed URL:
`[seg for seg in (p.path or "/").split("/") if seg]`. -/
def pathParts (u : String) : List String :=
  let p := urlparse u
  let path := if p.path = "" then "/" else p.path
  ((splitOnPred (fun c => c = '/') path.data []).map List.asString).filter
    (fun seg => seg ≠ "")

/-- The numbered fallback candidate `f"{base}-{n}"`. -/
def slugCandidate (base : String) (n : ℕ) : String :=
  base ++ "-" ++ Nat.repr n

/-- The `while True` search of `unique_slug_for_url`, made total with
explicit fuel: starting at suffix `n`, return the first candidate not
in `used`.  `slugSearch_reaches_free` below shows that fuel
`used.card + 1` always suffices, so this equals the unbounded loop. -/
def slugSearch (base : String) (used : Finset String) : ℕ → ℕ → String
  | 0, n => slugCandidate base n
  | fuel + 1, n =>
    if slugCandidate base n ∈ used then slugSearch base used fuel (n + 1)
    else slugCandidate base n

/-- The candidate cascade of `unique_slug_for_url`: prefer `base`, then
`parent-base`, else the first free `base-N` with `N = 2, 3, …`. -/
def allocSlug (base parent : String) (used : Finset String) :
    String × Finset String :=
  if base ≠ "" ∧ base ∉ used then (base, insert base used)
  else if parent ≠ "" ∧ (parent ++ "-" ++ base) ∉ used then
    (parent ++ "-" ++ base, insert (parent ++ "-" ++ base) used)
  else
    let s := slugSearch base used (used.card + 1) 2
    (s, insert s used)

/-- `unique_slug_for_url` from `app/main.py`: Python mutates the `used`
set in place; here the updated registry is returned alongside the slug.
`base` and `parent` are `_slugify_segment(parts[-1])` and
`_slugify_segment(parts[-2])` when those segments exist. -/
def uniqueSlugForUrl (u : String) (used : Finset String) : String × Finset String :=
  match (pathParts u).reverse with
  | [] => allocSlug "home" "" used
  | [last] => allocSlug (slugifySegment last) "" used
  | last :: par :: _ => allocSlug (slugifySegment last) (slugifySegment par) used

/-- The slug allocations of a batch run (`run_list` computes
`unique_slug_for_url(u, used)` for each surviving URL in order). -/
def runSlugs : List String → Finset String → List String × Finset String
  | [], used => ([], used)
  | u :: rest, used =>
    ((uniqueSlugForUrl u used).1 ::
      (runSlugs rest (uniqueSlugForUrl u used).2).1,
     (runSlugs rest (uniqueSlugForUrl u used).2).2)

/-! ### URL filtering (`NON_HTML_EXTS`, `should_skip_url`) -/

def NON_HTML_EXTS : List String :=
  [".pdf", ".zip", ".tar", ".gz", ".tgz", ".bz2", ".7z", ".rar",
   ".doc", ".docx", ".ppt", ".pptx", ".xls", ".xlsx", ".csv", ".tsv",
   ".mp4", ".mp3", ".webm", ".mov", ".avi", ".mkv",
   ".jpg", ".jpeg", ".png", ".gif", ".svg", ".ico", ".webp",
   ".json", ".xml", ".rss", ".atom", ".txt", ".md", ".yaml", ".yml"]

/-- `should_skip_url` from `app/main.py`. -/
def shouldSkipUrl (u : String) (includeNonhtml : Bool) : Bool :=
  if includeNonhtml then false
  else
    let parsed := urlparse u
    if parsed.scheme ≠ "http" ∧ parsed.scheme ≠ "https" then true
    else
      let path := pyLower parsed.path
      NON_HTML_EXTS.any (fun ext => pyEndsWith path ext)

/-- The filtering step of `run_list`:
`[u for u in urls if not should_skip_url(u, include_nonhtml)]`. -/
def filterUrls (urls : List String) (includeNonhtml : Bool) : List String :=
  urls.filter (fun u => ¬shouldSkipUrl u includeNonhtml)

/-! ### `parse_url_list_file` -/

def isListSep (c : Char) : Bool :=
  isPySpace c ∨ c = ',' ∨ c = ';' ∨ c = '|'

/-- `parse_url_list_file` from `app/main.py`, as a function of the file's
text: normalise line endings, split on runs of whitespace/comma/
semicolon/pipe, strip each token, drop empty and `#`-prefixed tokens. -/
def parseUrlList (raw : String) : List String :=
  let raw := (raw.data.map (fun c => if c = '\x0d' then '\n' else c))
  let tokens := (splitOnPred isListSep raw []).map
    (fun t => pyStrip t.asString)
  tokens.filter (fun t => t ≠ "" ∧ ¬(t.data.take 1 = ['#']))

/-! ### Modal capture (`try_capture_modal_only`)

A page handle is modelled by the outcomes of the external calls the
function makes; a raised exception is `Except.error ()`. -/

structure BBox where
  x : Int
  y : Int
  width : Int
  height : Int
deriving Repr, DecidableEq

structure ModalPage where
  /-- result of `page.evaluate(js_find_any_modal_script())` -/
  findModalEval : Except Unit Bool
  /-- result of `page.evaluate(js_modal_bbox_script())` -/
  modalBboxEval : Except Unit (Option BBox)
  /-- result of `page.evaluate("(y) => window.scrollTo(0, y)", …)` -/
  scrollToEval : Except Unit Unit
  /-- result of `page.screenshot(path=…, full_page=False, clip=…)` -/
  regionShot : Except Unit Unit

/-- `try_capture_modal_only` from `app/main.py`.  Only the first
evaluation and the screenshot are guarded by `try/except` in the
source; the bbox evaluation and the scroll evaluation are not, so
their errors propagate. -/
def tryCaptureModalOnly (page : ModalPage) (outPath : String) :
    Except Unit (Option String) :=
  let hasModal :=
    match page.findModalEval with
    | .ok b => b
    | .error _ => false
  if hasModal = false then .ok none
  else
    match page.modalBboxEval with
    | .error e => .error e
    | .ok none => .ok none
    | .ok (some _) =>
      match page.scrollToEval with
      | .error e => .error e
      | .ok _ =>
        match page.regionShot with
        | .ok _ => .ok (some outPath)
        | .error _ => .ok none

/-! ### Page preparation (`nav_and_prepare`) -/

inductive PrepStep where
  | scrollSettle
  | isiMark
  | freeze
  | hideSel
  | bannerAfterHide
  | defloatScript
  | bannerAfterDefloat
deriving Repr, DecidableEq

structure PrepFlags where
  settle : Bool
  isiReached : Bool
  hideSelectors : String
  defloat : Bool

structure PrepOracle where
  /-- `page.goto(url, wait_until=wait)` -/
  goto1 : Except Unit Unit
  /-- `page.goto(url, wait_until="domcontentloaded")` retry -/
  goto2 : Except Unit Unit
  /-- each `page.evaluate`-backed preparation step -/
  eval : PrepStep → Except Unit Unit

/-- The preparation steps `nav_and_prepare` runs after navigation, in
source order, filtered by the flags. -/
def enabledSteps (f : PrepFlags) : List PrepStep :=
  (if f.settle then [PrepStep.scrollSettle] else []) ++
  (if f.isiReached then [PrepStep.isiMark] else []) ++
  (if f.settle then [PrepStep.freeze] else []) ++
  (if f.hideSelectors ≠ "" then [PrepStep.hideSel, PrepStep.bannerAfterHide] else []) ++
  (if f.defloat then [PrepStep.defloatScript, PrepStep.bannerAfterDefloat] else [])

def stepOk (r : Except Unit Unit) : Bool :=
  match r with
  | .ok _ => true
  | .error _ => false

/-- Run preparation steps in order; the source has no `try/except`
around them, so the first error aborts.  Returns the steps that
completed and whether the whole sequence finished. -/
def runPrepSteps (o : PrepStep → Except Unit Unit) :
    List PrepStep → List PrepStep × Bool
  | [] => ([], true)
  | s :: rest =>
    match o s with
    | .error _ => ([], false)
    | .ok _ =>
      let (tr, fin) := runPrepSteps o rest
      (s :: tr, fin)

/-- `nav_and_prepare` from `app/main.py`: navigation with one looser
retry, then the normalization steps.  Returns the completed steps and
whether preparation ran to the end without an exception. -/
def navAndPrepare (o : PrepOracle) (f : PrepFlags) : List PrepStep × Bool :=
  match o.goto1 with
  | .ok _ => runPrepSteps o.eval (enabledSteps f)
  | .error _ =>
    match o.goto2 with
    | .error _ => ([], false)
    | .ok _ => runPrepSteps o.eval (enabledSteps f)

/-- A page oracle on which navigation succeeds and exactly one
preparation script (`bad`) raises. -/
def prepOracleFail (bad : PrepStep) : PrepOracle :=
  ⟨Except.ok (), Except.ok (),
   fun s => if s = bad then Except.error () else Except.ok ()⟩

/-! ### Progressive scroll (`progressive_scroll`) -/

/-- The `while True` loop of `progressive_scroll` with `step = 800`,
made total with explicit fuel: `hs i` is the value
`document.body.scrollHeight` reports at the `i`-th evaluation, `y` the
current scroll position.  `none` means the loop did not exit within
`fuel` iterations. -/
def progressiveScroll (hs : ℕ → ℕ) : ℕ → ℕ → ℕ → Option ℕ
  | 0, _, _ => none
  | fuel + 1, i, y =>
    if hs i ≤ y then some y else progressiveScroll hs fuel (i + 1) (y + 800)

/-! ### Defloat script (`js_defloat_script`) -/

/-- One DOM element, restricted to the state `js_defloat_script` reads
and writes.  Inline style fields follow the JS model: `""` means the
inline property is unset, and an element's effective (computed)
position is its inline position when set, else its stylesheet
position. -/
structure Elem where
  basePosition : String
  stylePosition : String
  styleTop : String
  styleLeft : String
  styleRight : String
  styleBottom : String
  styleWidth : String
  styleZ : String
  /-- `getComputedStyle(el).width`, e.g. `"120px"` -/
  csWidth : String
  /-- `getComputedStyle(el).zIndex`, e.g. `"auto"` or `"5"` -/
  csZ : String
  dataDefloated : Bool
  dataDesticky : Bool
deriving Repr, DecidableEq

def computedPosition (e : Elem) : String :=
  if e.stylePosition ≠ "" then e.stylePosition else e.basePosition

structure Rect where
  top : Int
  left : Int
deriving Repr, DecidableEq

/-- `parseInt(s, 10)`: optional sign, then a digit prefix; `none` is
`NaN`. -/
def jsParseInt (s : String) : Option Int :=
  let l := s.data.dropWhile isPySpace
  let (sign, l) :=
    match l with
    | '-' :: rest => ((-1 : Int), rest)
    | '+' :: rest => ((1 : Int), rest)
    | _ => ((1 : Int), l)
  let digits := l.takeWhile (fun c => '0' ≤ c ∧ c ≤ '9')
  if digits = [] then none
  else some (sign * (digits.foldl (fun acc c => acc * 10 + (c.toNat - '0'.toNat)) 0 : ℕ))

/-- `String(parseInt(cs.zIndex || '1000', 10) || 1000)`. -/
def defaultZ (csZ : String) : String :=
  let parsed := jsParseInt (if csZ = "" then "1000" else csZ)
  let v :=
    match parsed with
    | none => (1000 : Int)
    | some 0 => 1000
    | some v => v
  toString v

/-- `makeAbsolute` from `js_defloat_script` (the `WeakSet` guard only
de-duplicates within one run, where each element is visited once, so it
has no observable effect). -/
def makeAbsolute (scrollX scrollY : Int) (r : Rect) (e : Elem) : Elem :=
  { e with
    dataDefloated := true
    stylePosition := "absolute"
    styleTop := toString (r.top + scrollY) ++ "px"
    styleLeft := toString (r.left + scrollX) ++ "px"
    styleRight := "auto"
    styleBottom := "auto"
    styleWidth :=
      if e.csWidth ≠ "" ∧ pyEndsWith e.csWidth "px" then e.csWidth else e.styleWidth
    styleZ := if e.styleZ = "" then defaultZ e.csZ else e.styleZ }

/-- The per-element body of the `document.querySelectorAll('*')`
loop: the computed position is read once, then the `fixed` and
`sticky` branches apply to that snapshot. -/
def defloatElem (scrollX scrollY : Int) (r : Rect) (e : Elem) : Elem :=
  let cs := computedPosition e
  let e1 := if cs = "fixed" then makeAbsolute scrollX scrollY r e else e
  if cs = "sticky" then
    { e1 with dataDesticky := true, stylePosition := "static", styleTop := "auto" }
  else e1

def mapWithIdx (f : ℕ → α → β) : ℕ → List α → List β
  | _, [] => []
  | i, e :: rest => f i e :: mapWithIdx f (i + 1) rest

/-- One run of `js_defloat_script` over the whole document: `rects i`
is the bounding rectangle the `i`-th element reports during this run. -/
def defloatPage (rects : ℕ → Rect) (scrollX scrollY : Int) (page : List Elem) :
    List Elem :=
  mapWithIdx (fun i e => defloatElem scrollX scrollY (rects i) e) 0 page

/-- A fixed-positioned element, all inline styles unset. -/
def elemFix : Elem :=
  ⟨"fixed", "", "", "", "", "", "", "", "100px", "auto", false, false⟩

/-- `elemFix` after one defloat pass with rect `(1, 2)`, scroll `(3, 4)`. -/
def elemDefl : Elem :=
  ⟨"fixed", "absolute", "5px", "5px", "auto", "auto", "100px", "1000",
   "100px", "auto", true, false⟩

/-! ### Capture orchestration (`capture_single_url`, `close_any_modal`) -/

inductive Viewport where
  | desktop
  | mobile
deriving Repr, DecidableEq

inductive ArtifactKind where
  | popup
  | full
deriving Repr, DecidableEq

structure Artifact where
  kind : ArtifactKind
  viewport : Viewport
  path : String
deriving Repr, DecidableEq

/-- Per-viewport page behaviour: whether a visible modal is present
after preparation, and whether the modal-only capture (bbox + clipped
screenshot) succeeds on it. -/
structure VPOracle where
  modalPresent : Bool
  modalCaptureOk : Bool
deriving Repr, DecidableEq

/-- `try_capture_modal_only` returns a path on this page exactly when a
modal is present and its capture succeeds. -/
def popupCaptured (o : VPOracle) (noModalShot : Bool) : Bool :=
  !noModalShot && o.modalPresent && o.modalCaptureOk

inductive CaptureEvent where
  | navPrep (v : Viewport)
  | tryModal (v : Viewport)
  | closeModal (v : Viewport)
  /-- the full-page screenshot, recording whether a modal is still
  displayed when it is taken -/
  | fullShot (v : Viewport) (modalShown : Bool)
deriving Repr, DecidableEq

/-- One viewport block of `capture_single_url`: prepare, optionally try
the modal-only shot (closing the modal only when that shot returned a
path), then the full-page shot. -/
def captureViewport (v : Viewport) (o : VPOracle) (noModalShot : Bool)
    (popupPath fullPath : String) : List Artifact × List CaptureEvent :=
  let imgs1 : List Artifact :=
    if popupCaptured o noModalShot then [Artifact.mk ArtifactKind.popup v popupPath]
    else []
  let ev1 : List CaptureEvent :=
    if noModalShot then [CaptureEvent.navPrep v]
    else if popupCaptured o noModalShot then
      [CaptureEvent.navPrep v, CaptureEvent.tryModal v, CaptureEvent.closeModal v]
    else [CaptureEvent.navPrep v, CaptureEvent.tryModal v]
  (imgs1 ++ [Artifact.mk ArtifactKind.full v fullPath],
   ev1 ++ [CaptureEvent.fullShot v (o.modalPresent && !popupCaptured o noModalShot)])

/-- `capture_single_url` from `app/main.py`: the desktop block then the
mobile block, accumulating artifacts in capture order. -/
def captureSingleUrl (dt mb : VPOracle) (outDir baseName : String)
    (noModalShot : Bool) : List Artifact × List CaptureEvent :=
  ((captureViewport Viewport.desktop dt noModalShot
      (outDir ++ "/desktop/" ++ baseName ++ "_popup_dt.png")
      (outDir ++ "/desktop/" ++ baseName ++ "_dt.png")).1 ++
    (captureViewport Viewport.mobile mb noModalShot
      (outDir ++ "/mobile/" ++ baseName ++ "_popup_mb.png")
      (outDir ++ "/mobile/" ++ baseName ++ "_mb.png")).1,
   (captureViewport Viewport.desktop dt noModalShot
      (outDir ++ "/desktop/" ++ baseName ++ "_popup_dt.png")
      (outDir ++ "/desktop/" ++ baseName ++ "_dt.png")).2 ++
    (captureViewport Viewport.mobile mb noModalShot
      (outDir ++ "/mobile/" ++ baseName ++ "_popup_mb.png")
      (outDir ++ "/mobile/" ++ baseName ++ "_mb.png")).2)

/-! ## Supporting lemmas

`Nat.repr` (used by the `f"{base}-{n}"` fallback) is injective; this
underlies termination of the slug search loop. -/

theorem digitChar_inj_lt : ∀ d₁ < 10, ∀ d₂ < 10,
    Nat.digitChar d₁ = Nat.digitChar d₂ → d₁ = d₂ := by decide

theorem map_digitChar_inj : ∀ l₁ l₂ : List ℕ, (∀ x ∈ l₁, x < 10) →
    (∀ x ∈ l₂, x < 10) → l₁.map Nat.digitChar = l₂.map Nat.digitChar → l₁ = l₂
  | [], [], _, _, _ => rfl
  | [], _ :: _, _, _, h => by simp at h
  | _ :: _, [], _, _, h => by simp at h
  | a :: l₁, b :: l₂, h₁, h₂, h => by
    simp only [List.map_cons, List.cons.injEq] at h
    have hab := digitChar_inj_lt a (h₁ a (by simp)) b (h₂ b (by simp)) h.1
    have htl := map_digitChar_inj l₁ l₂ (fun x hx => h₁ x (by simp [hx]))
      (fun x hx => h₂ x (by simp [hx])) h.2
    simp [hab, htl]

theorem toDigitsCore_eq : ∀ (fuel n : ℕ) (ds : List Char), n < fuel →
    Nat.toDigitsCore 10 fuel n ds =
      (if n = 0 then ['0'] else ((Nat.digits 10 n).map Nat.digitChar).reverse) ++ ds := by
  intro fuel
  induction fuel with
  | zero => intro n ds h; omega
  | succ f ih =>
    intro n ds h
    by_cases h0 : n = 0
    · subst h0
      simp only [Nat.toDigitsCore, Nat.zero_div, if_pos rfl, Nat.zero_mod,
        List.singleton_append]
      rfl
    · have hd : Nat.digits 10 n = n % 10 :: Nat.digits 10 (n / 10) :=
        Nat.digits_def' (by norm_num) (Nat.pos_of_ne_zero h0)
      by_cases hq : n / 10 = 0
      · simp only [Nat.toDigitsCore, hq, if_pos rfl, if_neg h0, hd]
        simp [hq]
      · have hlt : n / 10 < f := by
          have hdiv : n / 10 < n := Nat.div_lt_self (Nat.pos_of_ne_zero h0) (by norm_num)
          omega
        have hstep : Nat.toDigitsCore 10 (f + 1) n ds =
            Nat.toDigitsCore 10 f (n / 10) (Nat.digitChar (n % 10) :: ds) := by
          simp [Nat.toDigitsCore, hq]
        rw [hstep, ih (n / 10) _ hlt]
        simp [hq, hd, if_neg h0]

theorem natRepr_eq (n : ℕ) : Nat.repr n =
    ((if n = 0 then ['0'] else ((Nat.digits 10 n).map Nat.digitChar).reverse)).asString := by
  show (Nat.toDigitsCore 10 (n + 1) n []).asString = _
  rw [toDigitsCore_eq (n + 1) n [] (Nat.lt_succ_self n)]
  simp

theorem natRepr_injective : Function.Injective Nat.repr := by
  intro m n h
  rw [natRepr_eq, natRepr_eq] at h
  have h' : (if m = 0 then ['0'] else ((Nat.digits 10 m).map Nat.digitChar).reverse) =
      (if n = 0 then ['0'] else ((Nat.digits 10 n).map Nat.digitChar).reverse) :=
    congrArg String.data h
  have single_zero : ∀ k : ℕ, k ≠ 0 →
      ['0'] ≠ ((Nat.digits 10 k).map Nat.digitChar).reverse := by
    intro k hk hcontra
    have hmap : (Nat.digits 10 k).map Nat.digitChar = ['0'] := by
      have := congrArg List.reverse hcontra
      simpa using this.symm
    rcases hdig : Nat.digits 10 k with _ | ⟨a, t⟩
    · rw [hdig] at hmap; simp at hmap
    · rw [hdig] at hmap
      simp only [List.map_cons, List.cons.injEq, List.map_eq_nil_iff] at hmap
      have ha : a < 10 := Nat.digits_lt_base (by norm_num) (by rw [hdig]; simp)
      have ha0 : a = 0 := digitChar_inj_lt a ha 0 (by norm_num) hmap.1
      have : k = Nat.ofDigits 10 (Nat.digits 10 k) := (Nat.ofDigits_digits 10 k).symm
      rw [hdig, ha0, hmap.2] at this
      simp [Nat.ofDigits] at this
      exact hk this
  by_cases hm : m = 0 <;> by_cases hn : n = 0
  · rw [hm, hn]
  · rw [if_pos hm, if_neg hn] at h'
    exact absurd h' (single_zero n hn)
  · rw [if_neg hm, if_pos hn] at h'
    exact absurd h'.symm (single_zero m hm)
  · rw [if_neg hm, if_neg hn] at h'
    have hmap : (Nat.digits 10 m).map Nat.digitChar = (Nat.digits 10 n).map Nat.digitChar := by
      have := congrArg List.reverse h'
      simpa using this
    have hdig : Nat.digits 10 m = Nat.digits 10 n :=
      map_digitChar_inj _ _ (fun x hx => Nat.digits_lt_base (by norm_num) hx)
        (fun x hx => Nat.digits_lt_base (by norm_num) hx) hmap
    calc m = Nat.ofDigits 10 (Nat.digits 10 m) := (Nat.ofDigits_digits 10 m).symm
      _ = Nat.ofDigits 10 (Nat.digits 10 n) := by rw [hdig]
      _ = n := Nat.ofDigits_digits 10 n

theorem slugCandidate_injective (base : String) :
    Function.Injective (slugCandidate base) := by
  intro a b h
  apply natRepr_injective
  have h' : (base ++ "-").data ++ (Nat.repr a).data =
      (base ++ "-").data ++ (Nat.repr b).data := by
    have := congrArg String.data h
    simpa [slugCandidate, String.data_append, List.append_assoc] using this
  exact String.ext (List.append_cancel_left h')

theorem exists_free_candidate (base : String) (used : Finset String) (n : ℕ) :
    ∃ k, k ≤ used.card ∧ slugCandidate base (n + k) ∉ used := by
  by_contra hall
  push_neg at hall
  have hinj : Function.Injective (fun k : ℕ => slugCandidate base (n + k)) := by
    intro a b hab
    have := slugCandidate_injective base hab
    omega
  have hsub : (Finset.range (used.card + 1)).image
      (fun k => slugCandidate base (n + k)) ⊆ used := by
    intro s hs
    simp only [Finset.mem_image, Finset.mem_range] at hs
    obtain ⟨k, hk, rfl⟩ := hs
    exact hall k (Nat.lt_succ_iff.mp hk)
  have hcard := Finset.card_le_card hsub
  rw [Finset.card_image_of_injective _ hinj, Finset.card_range] at hcard
  omega

/-- With any fuel covering a free candidate, `slugSearch` returns the
first free candidate at or after `n` — i.e. it computes exactly what the
unbounded `while True` loop of `unique_slug_for_url` computes. -/
theorem slugSearch_spec (base : String) (used : Finset String) :
    ∀ (fuel n : ℕ), (∃ k, k < fuel ∧ slugCandidate base (n + k) ∉ used) →
      ∃ m, n ≤ m ∧ slugSearch base used fuel n = slugCandidate base m ∧
        slugCandidate base m ∉ used ∧
        ∀ j, n ≤ j → j < m → slugCandidate base j ∈ used := by
  intro fuel
  induction fuel with
  | zero => intro n h; obtain ⟨k, hk, _⟩ := h; omega
  | succ f ih =>
    intro n h
    by_cases hmem : slugCandidate base n ∈ used
    · obtain ⟨k, hk, hfree⟩ := h
      have hk0 : k ≠ 0 := by
        rintro rfl
        exact hfree hmem
      obtain ⟨k', rfl⟩ : ∃ k', k = k' + 1 := ⟨k - 1, by omega⟩
      have hfree' : slugCandidate base (n + 1 + k') ∉ used := by
        rwa [show n + 1 + k' = n + (k' + 1) by omega]
      obtain ⟨m, hm1, hm2, hm3, hm4⟩ := ih (n + 1) ⟨k', by omega, hfree'⟩
      refine ⟨m, by omega, ?_, hm3, ?_⟩
      · simpa [slugSearch, hmem] using hm2
      · intro j hj1 hj2
        rcases Nat.eq_or_lt_of_le hj1 with rfl | hlt
        · exact hmem
        · exact hm4 j hlt hj2
    · exact ⟨n, le_refl n, by simp [slugSearch, hmem], hmem,
        fun j hj1 hj2 => absurd hj1 (by omega)⟩

theorem allocSlug_fresh (base parent : String) (used : Finset String) :
    (allocSlug base parent used).1 ∉ used ∧
      (allocSlug base parent used).2 = insert (allocSlug base parent used).1 used := by
  unfold allocSlug
  split_ifs with h1 h2
  · exact ⟨h1.2, rfl⟩
  · exact ⟨h2.2, rfl⟩
  · obtain ⟨k, hk, hfree⟩ := exists_free_candidate base used 2
    obtain ⟨m, _, hm2, hm3, _⟩ :=
      slugSearch_spec base used (used.card + 1) 2 ⟨k, by omega, hfree⟩
    constructor
    · show slugSearch base used (used.card + 1) 2 ∉ used
      rw [hm2]
      exact hm3
    · rfl

theorem uniqueSlug_fresh (u : String) (used : Finset String) :
    (uniqueSlugForUrl u used).1 ∉ used ∧
      (uniqueSlugForUrl u used).2 = insert (uniqueSlugForUrl u used).1 used := by
  unfold uniqueSlugForUrl
  split <;> exact allocSlug_fresh _ _ _

theorem runSlugs_spec : ∀ (urls : List String) (used : Finset String),
    (∀ s ∈ (runSlugs urls used).1, s ∉ used) ∧
      ((runSlugs urls used).1).Nodup ∧
      used ⊆ (runSlugs urls used).2 ∧
      ((runSlugs urls used).2).card = used.card + urls.length
  | [], used => by simp [runSlugs]
  | u :: rest, used => by
    obtain ⟨hfresh, hins⟩ := uniqueSlug_fresh u used
    obtain ⟨ih1, ih2, ih3, ih4⟩ := runSlugs_spec rest (uniqueSlugForUrl u used).2
    have hsubset : used ⊆ (uniqueSlugForUrl u used).2 := by
      rw [hins]; exact Finset.subset_insert _ _
    refine ⟨?_, ?_, ?_, ?_⟩
    · intro s hs
      simp only [runSlugs, List.mem_cons] at hs
      rcases hs with rfl | hs
      · exact hfresh
      · exact fun hmem => ih1 s hs (hsubset hmem)
    · simp only [runSlugs, List.nodup_cons]
      refine ⟨fun hmem => ih1 _ hmem ?_, ih2⟩
      rw [hins]
      exact Finset.mem_insert_self _ _
    · exact fun x hx => ih3 (hsubset hx)
    · simp only [runSlugs, List.length_cons]
      rw [ih4, hins, Finset.card_insert_of_not_mem hfresh]
      omega

/-! ## Claim theorems -/

/-- C2: In every batch run the slug registry never shrinks; after `k`
allocations from an empty registry its size is `k`; no two calls within
one run return the same slug; and the returned slug is a deterministic
function of the URL and the registry contents at call time. -/
theorem claim_C2 :
    (∀ (u : String) (used : Finset String), used ⊆ (uniqueSlugForUrl u used).2) ∧
    (∀ urls : List String, ((runSlugs urls ∅).2).card = urls.length) ∧
    (∀ (urls : List String) (used : Finset String), ((runSlugs urls used).1).Nodup) ∧
    (∀ (u : String) (used₁ used₂ : Finset String), used₁ = used₂ →
      uniqueSlugForUrl u used₁ = uniqueSlugForUrl u used₂) := by
  refine ⟨fun u used => ?_, fun urls => ?_,
    fun urls used => (runSlugs_spec urls used).2.1, fun u u₁ u₂ h => by rw [h]⟩
  · rw [(uniqueSlug_fresh u used).2]
    exact Finset.subset_insert _ _
  · have h := (runSlugs_spec urls ∅).2.2.2
    simpa using h

theorem claim_C2_witness :
    (∅ : Finset String) ⊆ (uniqueSlugForUrl "https://x.com/" ∅).2 ∧
    ((runSlugs ["https://x.com/", "https://y.com/"] ∅).2).card = 2 ∧
    ((runSlugs ["https://x.com/", "https://y.com/"] ∅).1).Nodup ∧
    uniqueSlugForUrl "https://x.com/" ∅ = uniqueSlugForUrl "https://x.com/" ∅ :=
  ⟨claim_C2.1 "https://x.com/" ∅,
   claim_C2.2.1 ["https://x.com/", "https://y.com/"],
   claim_C2.2.2.1 ["https://x.com/", "https://y.com/"] ∅,
   claim_C2.2.2.2 "https://x.com/" ∅ ∅ rfl⟩

/-- C3 fails as stated: two URLs `/products/index` then `/services/index`
give slugs `index` then `services-index` — the collision is qualified by
the colliding URL's own parent `services`, not `products` as the claim
says. -/
theorem claim_C3_counterexample :
    (runSlugs ["https://x.com/products/index", "https://x.com/services/index"] ∅).1 =
      ["index", "services-index"] ∧
    (["index", "services-index"] : List String) ≠ ["index", "products-index"] := by
  constructor
  · decide
  · decide

/-- C3 (amended): starting from an empty registry, `/blog/post-one` then
`/blog/post-two` give `post-one` and `post-two`; `/products/index` then
`/services/index` give `index` then `services-index` (qualified by the
colliding URL's own parent); a root-path URL gives `home` and a second
root-path URL in the same run gives `home-2`. -/
theorem claim_C3 :
    (runSlugs ["https://x.com/blog/post-one", "https://x.com/blog/post-two"] ∅).1 =
      ["post-one", "post-two"] ∧
    (runSlugs ["https://x.com/products/index", "https://x.com/services/index"] ∅).1 =
      ["index", "services-index"] ∧
    (runSlugs ["https://x.com/", "https://y.com"] ∅).1 = ["home", "home-2"] := by
  refine ⟨?_, ?_, ?_⟩ <;> decide

/-- C6 fails as stated: with the include-non-HTML override set,
`should_skip_url` returns `False` unconditionally, so `ftp://x.com/file`
is not skipped even though its scheme is neither http nor https. -/
theorem claim_C6_counterexample :
    shouldSkipUrl "ftp://x.com/file" true = false ∧
      (urlparse "ftp://x.com/file").scheme = "ftp" := by
  constructor
  · decide
  · decide

/-- C6 (amended): a URL is skipped iff the override is unset and either
its scheme is not http/https or its lowercased path ends in a known
non-page extension (the override disables all skipping, scheme check
included); the pdf/page/ftp batch with the override unset yields exactly
one surviving target. -/
theorem claim_C6 :
    (∀ (u : String) (inc : Bool), shouldSkipUrl u inc = true ↔
      (inc = false ∧ (((urlparse u).scheme ≠ "http" ∧ (urlparse u).scheme ≠ "https") ∨
        NON_HTML_EXTS.any (fun ext => pyEndsWith (pyLower (urlparse u).path) ext) = true))) ∧
    filterUrls ["https://x.com/report.pdf", "https://x.com/page", "ftp://x.com/file"] false =
      ["https://x.com/page"] ∧
    shouldSkipUrl "https://x.com/report.pdf" false = true ∧
    shouldSkipUrl "ftp://x.com/file" false = true := by
  refine ⟨?_, by decide, by decide, by decide⟩
  intro u inc
  cases inc with
  | true => simp [shouldSkipUrl]
  | false =>
    simp only [shouldSkipUrl, Bool.false_eq_true, if_false]
    split_ifs with h
    · simp [h]
    · simp [h]

/-- C8 fails as stated: splitting happens before comment filtering, so a
`#`-prefixed line whose comment text contains separators contributes its
later tokens to the output. -/
theorem claim_C8_counterexample :
    parseUrlList "# see http://a.com\nhttp://b.com" =
      ["see", "http://a.com", "http://b.com"] := by decide

/-- C8 (amended): every `#`-prefixed token (not line) is dropped, every
output token is nonempty and not `#`-prefixed, and URL tokens separated
by any mix of line endings, whitespace, commas, semicolons, or pipes
come out as distinct entries in input order. -/
theorem claim_C8 :
    (∀ (raw t : String), t ∈ parseUrlList raw → t ≠ "" ∧ t.data.take 1 ≠ ['#']) ∧
    parseUrlList "a,b;c|d e\tf\x0d\ng" = ["a", "b", "c", "d", "e", "f", "g"] ∧
    parseUrlList "#comment\nhttp://x.com" = ["http://x.com"] := by
  refine ⟨?_, by decide, by decide⟩
  intro raw t ht
  simp only [parseUrlList] at ht
  have h := List.mem_filter.mp ht
  simpa using h.2

theorem claim_C8_witness :
    ("a" ∈ parseUrlList "a b") ∧
      (("a" : String) ≠ "" ∧ ("a" : String).data.take 1 ≠ ['#']) :=
  ⟨by decide, claim_C8.1 "a b" "a" (by decide)⟩

/-- C4 fails as stated: the bounding-box evaluation is not guarded by
`try/except`, so when a modal is detected and that evaluation errors,
the exception propagates out of `try_capture_modal_only`. -/
theorem claim_C4_counterexample :
    tryCaptureModalOnly
      ⟨Except.ok true, Except.error (), Except.ok (), Except.ok ()⟩ "popup.png" =
      Except.error () := rfl

/-- C4 (amended): `try_capture_modal_only` returns none without raising
when no modal is detected (including when the detection evaluation
itself errors), when the bounding-box evaluation yields no box, or when
the scroll succeeds and the region capture call fails; an error raised
by the bounding-box evaluation itself propagates. -/
theorem claim_C4 : ∀ (page : ModalPage) (out : String),
    ((page.findModalEval = Except.ok false ∨ page.findModalEval = Except.error ()) →
      tryCaptureModalOnly page out = Except.ok none) ∧
    (page.findModalEval = Except.ok true → page.modalBboxEval = Except.ok none →
      tryCaptureModalOnly page out = Except.ok none) ∧
    (∀ b : BBox, page.findModalEval = Except.ok true →
      page.modalBboxEval = Except.ok (some b) → page.scrollToEval = Except.ok () →
      page.regionShot = Except.error () →
      tryCaptureModalOnly page out = Except.ok none) := by
  intro page out
  refine ⟨?_, ?_, ?_⟩
  · rintro (h | h) <;> simp [tryCaptureModalOnly, h]
  · intro h1 h2
    simp [tryCaptureModalOnly, h1, h2]
  · intro b h1 h2 h3 h4
    simp [tryCaptureModalOnly, h1, h2, h3, h4]

theorem claim_C4_witness :
    tryCaptureModalOnly ⟨Except.ok false, Except.ok none, Except.ok (), Except.ok ()⟩
        "p.png" = Except.ok none ∧
    tryCaptureModalOnly ⟨Except.ok true, Except.ok none, Except.ok (), Except.ok ()⟩
        "p.png" = Except.ok none ∧
    tryCaptureModalOnly
        ⟨Except.ok true, Except.ok (some ⟨0, 0, 100, 100⟩), Except.ok (), Except.error ()⟩
        "p.png" = Except.ok none :=
  ⟨(claim_C4 ⟨Except.ok false, Except.ok none, Except.ok (), Except.ok ()⟩ "p.png").1
      (Or.inl rfl),
   (claim_C4 ⟨Except.ok true, Except.ok none, Except.ok (), Except.ok ()⟩ "p.png").2.1
      rfl rfl,
   (claim_C4 ⟨Except.ok true, Except.ok (some ⟨0, 0, 100, 100⟩), Except.ok (),
      Except.error ()⟩ "p.png").2.2 ⟨0, 0, 100, 100⟩ rfl rfl rfl rfl⟩

theorem runPrepSteps_eq (o : PrepStep → Except Unit Unit) : ∀ steps : List PrepStep,
    runPrepSteps o steps =
      (steps.takeWhile (fun s => stepOk (o s)), steps.all (fun s => stepOk (o s)))
  | [] => rfl
  | s :: rest => by
    cases h : o s with
    | error e =>
      simp [runPrepSteps, h, List.takeWhile_cons, stepOk, List.all_cons]
    | ok v =>
      simp [runPrepSteps, h, List.takeWhile_cons, stepOk, List.all_cons,
        runPrepSteps_eq o rest]

/-- C5 fails as stated: `nav_and_prepare` has no error handling around
the normalization scripts, so a failing ISI-mark evaluation aborts
preparation before the freeze, hide-selector, banner and defloat steps. -/
theorem claim_C5_counterexample :
    navAndPrepare (prepOracleFail PrepStep.isiMark) ⟨true, true, "x", true⟩ =
      ([PrepStep.scrollSettle], false) := by decide

/-- C5 (amended): after a successful navigation, the failure of any
individual normalization-script evaluation aborts `nav_and_prepare`: the
failing step and the remaining enabled steps do not run, and the
exception propagates (preparation does not complete). -/
theorem claim_C5 : ∀ (o : PrepOracle) (f : PrepFlags) (s : PrepStep),
    o.goto1 = Except.ok () → s ∈ enabledSteps f → o.eval s = Except.error () →
    (navAndPrepare o f).2 = false ∧ s ∉ (navAndPrepare o f).1 ∧
      (navAndPrepare o f).1 =
        (enabledSteps f).takeWhile (fun t => stepOk (o.eval t)) := by
  intro o f s hg hs he
  have hnav : navAndPrepare o f = runPrepSteps o.eval (enabledSteps f) := by
    simp [navAndPrepare, hg]
  rw [hnav, runPrepSteps_eq]
  refine ⟨?_, ?_, rfl⟩
  · cases hb : (enabledSteps f).all (fun t => stepOk (o.eval t)) with
    | false => rfl
    | true =>
      have := List.all_eq_true.mp hb s hs
      rw [he] at this
      simp [stepOk] at this
  · intro hmem
    have := List.mem_takeWhile_imp hmem
    rw [he] at this
    simp [stepOk] at this

theorem claim_C5_witness :
    (navAndPrepare (prepOracleFail PrepStep.freeze) ⟨true, false, "", false⟩).2 = false ∧
    PrepStep.freeze ∉
      (navAndPrepare (prepOracleFail PrepStep.freeze) ⟨true, false, "", false⟩).1 ∧
    (navAndPrepare (prepOracleFail PrepStep.freeze) ⟨true, false, "", false⟩).1 =
      (enabledSteps ⟨true, false, "", false⟩).takeWhile
        (fun t => stepOk ((prepOracleFail PrepStep.freeze).eval t)) :=
  claim_C5 (prepOracleFail PrepStep.freeze) ⟨true, false, "", false⟩ PrepStep.freeze
    rfl (by decide) rfl

theorem progScroll_const_term (h : ℕ) : ∀ (fuel i y : ℕ), h ≤ y + 800 * fuel →
    ∃ z, progressiveScroll (fun _ => h) (fuel + 1) i y = some z ∧ h ≤ z := by
  intro fuel
  induction fuel with
  | zero =>
    intro i y hy
    simp only [Nat.mul_zero, Nat.add_zero] at hy
    exact ⟨y, by simp [progressiveScroll, hy], hy⟩
  | succ f ih =>
    intro i y hy
    by_cases hc : h ≤ y
    · exact ⟨y, by simp [progressiveScroll, hc], hc⟩
    · obtain ⟨z, hz1, hz2⟩ := ih (i + 1) (y + 800) (by omega)
      exact ⟨z, by simpa [progressiveScroll, hc] using hz1, hz2⟩

theorem progScroll_nonterm (hs : ℕ → ℕ) (hgrow : ∀ i, 800 * i < hs i) :
    ∀ (fuel i : ℕ), progressiveScroll hs fuel i (800 * i) = none := by
  intro fuel
  induction fuel with
  | zero => intro i; rfl
  | succ f ih =>
    intro i
    have hni : ¬ hs i ≤ 800 * i := by
      have := hgrow i
      omega
    have hstep : progressiveScroll hs (f + 1) i (800 * i) =
        progressiveScroll hs f (i + 1) (800 * i + 800) := by
      simp [progressiveScroll, hni]
    rw [hstep, show 800 * i + 800 = 800 * (i + 1) by ring]
    exact ih (i + 1)

/-- C7: the settle loop advances the scroll position by a fixed 800 each
iteration and exits once the position reaches or exceeds the reported
height; for a constant reported `scrollHeight` it terminates, while
against a height that grows by at least the increment at every
evaluation it never exits, whatever the iteration budget — there is no
cap. -/
theorem claim_C7 :
    (∀ (hs : ℕ → ℕ) (fuel i y : ℕ),
      progressiveScroll hs (fuel + 1) i y =
        if hs i ≤ y then some y else progressiveScroll hs fuel (i + 1) (y + 800)) ∧
    (∀ h : ℕ, ∃ fuel z, progressiveScroll (fun _ => h) fuel 0 0 = some z ∧ h ≤ z) ∧
    (∀ hs : ℕ → ℕ, 0 < hs 0 → (∀ i, hs i + 800 ≤ hs (i + 1)) →
      ∀ fuel, progressiveScroll hs fuel 0 0 = none) := by
  refine ⟨fun hs fuel i y => rfl, fun h => ?_, fun hs h0 hstep fuel => ?_⟩
  · have hb : h ≤ 0 + 800 * h := by
      have : h ≤ 800 * h := Nat.le_mul_of_pos_left h (by norm_num)
      omega
    obtain ⟨z, hz1, hz2⟩ := progScroll_const_term h h 0 0 hb
    exact ⟨h + 1, z, hz1, hz2⟩
  · have hgrow : ∀ i, 800 * i < hs i := by
      intro i
      induction i with
      | zero => simpa using h0
      | succ n ihn =>
        have := hstep n
        omega
    have := progScroll_nonterm hs hgrow fuel 0
    simpa using this

theorem claim_C7_witness :
    progressiveScroll (fun i => 800 * (i + 1)) 7 0 0 = none :=
  claim_C7.2.2 (fun i => 800 * (i + 1)) (by norm_num)
    (fun i => le_of_eq (by ring)) 7

theorem stylePosition_makeAbsolute (sx sy : Int) (r : Rect) (e : Elem) :
    (makeAbsolute sx sy r e).stylePosition = "absolute" := rfl

theorem computedPosition_makeAbsolute (sx sy : Int) (r : Rect) (e : Elem) :
    computedPosition (makeAbsolute sx sy r e) = "absolute" := by
  unfold computedPosition
  simp [stylePosition_makeAbsolute, (show ("absolute" : String) ≠ "" by decide)]

/-- After one defloat pass no element's effective position is `fixed` or
`sticky` any more, so a rerun's per-element branches are all skipped. -/
theorem defloatElem_skip (sx sy : Int) (r : Rect) (e : Elem) :
    computedPosition (defloatElem sx sy r e) ≠ "fixed" ∧
      computedPosition (defloatElem sx sy r e) ≠ "sticky" := by
  by_cases hst : computedPosition e = "sticky"
  · have hfx : ¬ computedPosition e = "fixed" := by
      rw [hst]
      decide
    have hres : defloatElem sx sy r e =
        { e with dataDesticky := true, stylePosition := "static", styleTop := "auto" } := by
      simp [defloatElem, hst, hfx]
    rw [hres]
    constructor <;>
      simp [computedPosition, (show ("static" : String) ≠ "" by decide)]
  · by_cases hfx : computedPosition e = "fixed"
    · have hres : defloatElem sx sy r e = makeAbsolute sx sy r e := by
        simp [defloatElem, hst, hfx]
      rw [hres, computedPosition_makeAbsolute]
      constructor <;> decide
    · have hres : defloatElem sx sy r e = e := by
        simp [defloatElem, hst, hfx]
      rw [hres]
      exact ⟨hfx, hst⟩

theorem defloatElem_idem (sx1 sy1 sx2 sy2 : Int) (r1 r2 : Rect) (e : Elem) :
    defloatElem sx2 sy2 r2 (defloatElem sx1 sy1 r1 e) = defloatElem sx1 sy1 r1 e := by
  obtain ⟨h1, h2⟩ := defloatElem_skip sx1 sy1 r1 e
  conv_lhs => rw [defloatElem]
  simp [h1, h2]

theorem mapWithIdx_comp_eq {α : Type} (f g : ℕ → α → α)
    (h : ∀ i e, f i (g i e) = g i e) :
    ∀ (l : List α) (i : ℕ), mapWithIdx f i (mapWithIdx g i l) = mapWithIdx g i l
  | [], _ => rfl
  | e :: rest, i => by
    simp [mapWithIdx, h i e, mapWithIdx_comp_eq f g h rest (i + 1)]

theorem mapWithIdx_forall {α β : Type} (f : ℕ → α → β) (P : β → Prop)
    (h : ∀ i a, P (f i a)) :
    ∀ (l : List α) (i : ℕ), ∀ b ∈ mapWithIdx f i l, P b
  | [], _, b, hb => absurd hb (by simp [mapWithIdx])
  | a :: rest, i, b, hb => by
    simp only [mapWithIdx, List.mem_cons] at hb
    rcases hb with rfl | hb
    · exact h i a
    · exact mapWithIdx_forall f P h rest (i + 1) b hb

/-- C9: the defloat directive is idempotent — a second run (with any
rectangles and scroll offsets the second pass might observe) changes
nothing, because after the first pass every element's effective position
is no longer `fixed` or `sticky`, so the rerun skips it. -/
theorem claim_C9 : ∀ (r1 r2 : ℕ → Rect) (sx1 sy1 sx2 sy2 : Int) (page : List Elem),
    defloatPage r2 sx2 sy2 (defloatPage r1 sx1 sy1 page) = defloatPage r1 sx1 sy1 page ∧
    ∀ e ∈ defloatPage r1 sx1 sy1 page,
      computedPosition e ≠ "fixed" ∧ computedPosition e ≠ "sticky" := by
  intro r1 r2 sx1 sy1 sx2 sy2 page
  constructor
  · exact mapWithIdx_comp_eq _ _
      (fun i e => defloatElem_idem sx1 sy1 sx2 sy2 (r1 i) (r2 i) e) page 0
  · exact mapWithIdx_forall _ _ (fun i e => defloatElem_skip sx1 sy1 (r1 i) e) page 0

theorem claim_C9_witness :
    defloatPage (fun _ => Rect.mk 5 6) 0 0
        (defloatPage (fun _ => Rect.mk 1 2) 3 4 [elemFix]) =
      defloatPage (fun _ => Rect.mk 1 2) 3 4 [elemFix] ∧
    (computedPosition elemDefl ≠ "fixed" ∧ computedPosition elemDefl ≠ "sticky") :=
  ⟨(claim_C9 (fun _ => Rect.mk 1 2) (fun _ => Rect.mk 5 6) 3 4 0 0 [elemFix]).1,
   (claim_C9 (fun _ => Rect.mk 1 2) (fun _ => Rect.mk 5 6) 3 4 0 0 [elemFix]).2
     elemDefl (by decide)⟩

/-- C1: a single-target capture returns artifacts in the order
[popup-desktop?, full-desktop, popup-mobile?, full-mobile], with a popup
entry present exactly when the modal popup capture succeeded on that
viewport; a modal captured on both viewports gives exactly those 4
artifacts in order, no modal on either viewport gives exactly the 2
full-page artifacts. -/
theorem claim_C1 : ∀ (dt mb : VPOracle) (d b : String) (nms : Bool),
    (captureSingleUrl dt mb d b nms).1 =
      (if popupCaptured dt nms then
        [Artifact.mk ArtifactKind.popup Viewport.desktop
          (d ++ "/desktop/" ++ b ++ "_popup_dt.png")]
      else []) ++
      [Artifact.mk ArtifactKind.full Viewport.desktop (d ++ "/desktop/" ++ b ++ "_dt.png")] ++
      (if popupCaptured mb nms then
        [Artifact.mk ArtifactKind.popup Viewport.mobile
          (d ++ "/mobile/" ++ b ++ "_popup_mb.png")]
      else []) ++
      [Artifact.mk ArtifactKind.full Viewport.mobile (d ++ "/mobile/" ++ b ++ "_mb.png")] ∧
    (captureSingleUrl ⟨true, true⟩ ⟨true, true⟩ d b false).1 =
      [Artifact.mk ArtifactKind.popup Viewport.desktop
        (d ++ "/desktop/" ++ b ++ "_popup_dt.png"),
       Artifact.mk ArtifactKind.full Viewport.desktop (d ++ "/desktop/" ++ b ++ "_dt.png"),
       Artifact.mk ArtifactKind.popup Viewport.mobile
        (d ++ "/mobile/" ++ b ++ "_popup_mb.png"),
       Artifact.mk ArtifactKind.full Viewport.mobile (d ++ "/mobile/" ++ b ++ "_mb.png")] ∧
    (∀ c1 c2 : Bool, (captureSingleUrl ⟨false, c1⟩ ⟨false, c2⟩ d b nms).1 =
      [Artifact.mk ArtifactKind.full Viewport.desktop (d ++ "/desktop/" ++ b ++ "_dt.png"),
       Artifact.mk ArtifactKind.full Viewport.mobile (d ++ "/mobile/" ++ b ++ "_mb.png")]) := by
  intro dt mb d b nms
  refine ⟨?_, ?_, ?_⟩
  · obtain ⟨p1, c1⟩ := dt
    obtain ⟨p2, c2⟩ := mb
    cases p1 <;> cases c1 <;> cases p2 <;> cases c2 <;> cases nms <;>
      simp [captureSingleUrl, captureViewport, popupCaptured]
  · simp [captureSingleUrl, captureViewport, popupCaptured]
  · intro c1 c2
    cases c1 <;> cases c2 <;> cases nms <;>
      simp [captureSingleUrl, captureViewport, popupCaptured]

/-- C10: the modal is dismissed (close event) exactly when the popup
capture produced an artifact for that viewport; when a modal is present
but the popup capture yields none, no close ever happens and the
full-page shot for that viewport is taken with the modal still
displayed. -/
theorem claim_C10 : ∀ (dt mb : VPOracle) (d b : String) (nms : Bool),
    ((CaptureEvent.closeModal Viewport.desktop ∈ (captureSingleUrl dt mb d b nms).2) ↔
      popupCaptured dt nms = true) ∧
    ((CaptureEvent.closeModal Viewport.mobile ∈ (captureSingleUrl dt mb d b nms).2) ↔
      popupCaptured mb nms = true) ∧
    ((Artifact.mk ArtifactKind.popup Viewport.desktop
        (d ++ "/desktop/" ++ b ++ "_popup_dt.png") ∈ (captureSingleUrl dt mb d b nms).1) ↔
      popupCaptured dt nms = true) ∧
    ((Artifact.mk ArtifactKind.popup Viewport.mobile
        (d ++ "/mobile/" ++ b ++ "_popup_mb.png") ∈ (captureSingleUrl dt mb d b nms).1) ↔
      popupCaptured mb nms = true) ∧
    CaptureEvent.fullShot Viewport.desktop (dt.modalPresent && !popupCaptured dt nms) ∈
      (captureSingleUrl dt mb d b nms).2 ∧
    CaptureEvent.fullShot Viewport.mobile (mb.modalPresent && !popupCaptured mb nms) ∈
      (captureSingleUrl dt mb d b nms).2 := by
  intro dt mb d b nms
  obtain ⟨p1, c1⟩ := dt
  obtain ⟨p2, c2⟩ := mb
  cases p1 <;> cases c1 <;> cases p2 <;> cases c2 <;> cases nms <;>
    simp [captureSingleUrl, captureViewport, popupCaptured]

end WSC
